import Mathlib

/-!
Verification of the SOTA USA County Explorer pipeline (`app.py`).

The development shallowly embeds the data pipeline of the dashboard:
loading summit rows, the left spatial join against county polygons,
FIPS-code translation, per-summit label aggregation, and the sidebar
filter layer.  Pandas / geopandas library operations are modelled by
their documented semantics on the explicit row lists the app builds;
geometry is modelled abstractly by each polygon's interior and boundary
membership tests, which is all the `intersects` predicate of the join
consumes for point geometries.
-/

namespace Sota

/-- Coordinates (latitude / longitude values) are modelled as rationals. -/
abbrev Coord := ℚ

/-- The `STATE_FIPS` table of `app.py` (lines 22-32): two-digit state FIPS
code to postal abbreviation. -/
def STATE_FIPS : List (String × String) :=
  [("01", "AL"), ("02", "AK"), ("04", "AZ"), ("05", "AR"), ("06", "CA"), ("08", "CO"),
   ("09", "CT"), ("10", "DE"), ("11", "DC"), ("12", "FL"), ("13", "GA"), ("15", "HI"),
   ("16", "ID"), ("17", "IL"), ("18", "IN"), ("19", "IA"), ("20", "KS"), ("21", "KY"),
   ("22", "LA"), ("23", "ME"), ("24", "MD"), ("25", "MA"), ("26", "MI"), ("27", "MN"),
   ("28", "MS"), ("29", "MO"), ("30", "MT"), ("31", "NE"), ("32", "NV"), ("33", "NH"),
   ("34", "NJ"), ("35", "NM"), ("36", "NY"), ("37", "NC"), ("38", "ND"), ("39", "OH"),
   ("40", "OK"), ("41", "OR"), ("42", "PA"), ("44", "RI"), ("45", "SC"), ("46", "SD"),
   ("47", "TN"), ("48", "TX"), ("49", "UT"), ("50", "VT"), ("51", "VA"), ("53", "WA"),
   ("54", "WV"), ("55", "WI"), ("56", "WY")]

/-- Dictionary lookup in the `STATE_FIPS` table, as done by
`joined["STATE"].map(STATE_FIPS)` (line 73): a key absent from the table
yields a missing value. -/
def fipsLookup (code : String) : Option String :=
  (STATE_FIPS.find? fun p => p.1 == code).map Prod.snd

/-- One raw row of `w-summits.csv` as read by `pd.read_csv` (line 39): the
coordinate cells are still text at this point. -/
structure RawSummit where
  summitCode : String
  summitName : String
  regionName : String
  associationName : String
  latitude : String
  longitude : String
  points : Nat
deriving DecidableEq

/-- A loaded summit row after coordinate coercion (output of `load_summits`). -/
structure Summit where
  summitCode : String
  summitName : String
  regionName : String
  associationName : String
  latitude : Coord
  longitude : Coord
  points : Nat
deriving DecidableEq

/-- Value of a list of decimal digit characters. -/
def digitsVal (cs : List Char) : Nat :=
  cs.foldl (fun a c => a * 10 + (c.toNat - 48)) 0

/-- Whitespace removed from both ends of a character list (the behaviour of
Python `str.strip` and of `String.trim` on the underlying characters). -/
def trimChars (cs : List Char) : List Char :=
  ((cs.dropWhile Char.isWhitespace).reverse.dropWhile Char.isWhitespace).reverse

/-- Whitespace removed from both ends of a string. -/
def strTrim (s : String) : String := ⟨trimChars s.data⟩

/-- Split a character list on every occurrence of the single character ","
(the behaviour of Python `str.split(",")`): the empty list yields one empty
piece. -/
def splitOnComma : List Char → List (List Char)
  | [] => [[]]
  | c :: cs =>
      if c = ',' then [] :: splitOnComma cs
      else
        match splitOnComma cs with
        | [] => [[c]]
        | p :: ps => (c :: p) :: ps

/-- Split a string on every "," character. -/
def splitComma (s : String) : List String :=
  (splitOnComma s.data).map fun cs => ⟨cs⟩

/-- Split a character list on every occurrence of the two-character
separator ", " (the behaviour of Python `str.split(", ")`), scanning left
to right. -/
def splitOnCommaSpace : List Char → List (List Char)
  | [] => [[]]
  | [c] => [[c]]
  | c :: d :: cs =>
      if c = ',' ∧ d = ' ' then [] :: splitOnCommaSpace cs
      else
        match splitOnCommaSpace (d :: cs) with
        | [] => [[c]]
        | p :: ps => (c :: p) :: ps

/-- Split a string on every ", " occurrence. -/
def splitCommaSpace (s : String) : List String :=
  (splitOnCommaSpace s.data).map fun cs => ⟨cs⟩

/-- Models `pd.to_numeric(..., errors="coerce")` (lines 40-41) on a decimal
text cell: surrounding whitespace is ignored, an optional sign is followed
by an integer part and an optional fractional part, and any cell that is
not numeric text in this form (the empty cell included) coerces to a
missing value. -/
def toNumeric (s : String) : Option Coord :=
  let cs := trimChars s.data
  let signed : Bool × List Char :=
    match cs with
    | '-' :: rest => (true, rest)
    | '+' :: rest => (false, rest)
    | _ => (false, cs)
  let intPart := signed.2.takeWhile Char.isDigit
  let rest := signed.2.dropWhile Char.isDigit
  let mantissa : Option (Nat × Nat) :=
    match rest with
    | [] => if intPart.isEmpty then none else some (digitsVal intPart, 0)
    | '.' :: frac =>
        if frac.all Char.isDigit && (!intPart.isEmpty || !frac.isEmpty) then
          some (digitsVal intPart * 10 ^ frac.length + digitsVal frac, frac.length)
        else none
    | _ => none
  mantissa.map fun m =>
    let q : Coord := (m.1 : Coord) / ((10 : Coord) ^ m.2)
    if signed.1 then -q else q

/-- `load_summits` (lines 38-43): coerce both coordinate columns to numbers
and drop every row in which either coordinate is missing after coercion. -/
def load_summits (rows : List RawSummit) : List Summit :=
  rows.filterMap fun r =>
    match toNumeric r.longitude, toNumeric r.latitude with
    | some lon, some lat =>
        some { summitCode := r.summitCode, summitName := r.summitName,
               regionName := r.regionName, associationName := r.associationName,
               latitude := lat, longitude := lon, points := r.points }
    | _, _ => none

/-- A county feature of `counties.json` as loaded by `load_counties`
(lines 45-53): the `NAME` and `STATE` attributes (either may be missing
in the source data) and the polygon geometry.  The geometry is modelled
by its interior and boundary membership tests on a (longitude, latitude)
point, which is exactly what the point-in-polygon predicate of the join
consumes. -/
structure County where
  NAME : Option String
  STATE : Option String
  interior : Coord × Coord → Bool
  boundary : Coord × Coord → Bool

/-- The `predicate="intersects"` test of `gpd.sjoin` (line 69) applied to a
point geometry and a polygon: the point intersects the polygon exactly
when it lies in the interior or on the boundary. -/
def intersects (c : County) (p : Coord × Coord) : Bool :=
  c.interior p || c.boundary p

/-- The counties matched by a point: every polygon the point intersects. -/
def matchesOf (counties : List County) (p : Coord × Coord) : List County :=
  counties.filter fun c => intersects c p

/-- `joined["CountyFull"] = joined["NAME"] + " County, " + joined["StateAbbr"]`
(lines 73-74): the composite county string of one matched polygon, missing
whenever the name, the state code, or the code's table entry is missing
(string concatenation with a missing value propagates the missing value). -/
def countyFull (c : County) : Option String :=
  match c.NAME, c.STATE.bind fipsLookup with
  | some n, some a => some (n ++ " County, " ++ a)
  | _, _ => none

/-- The block of rows the left join (`gpd.sjoin ... how="left"`, lines 65-70)
emits for one summit: one row per matched county carrying that county's
`CountyFull` value, or a single row with a missing `CountyFull` when no
county matches. -/
def joinedOf (counties : List County) (s : Summit) : List (Summit × Option String) :=
  match matchesOf counties (s.longitude, s.latitude) with
  | [] => [(s, none)]
  | ms => ms.map fun c => (s, countyFull c)

/-- The full left-joined frame, in left (summit) order. -/
def joinedRows (summits : List Summit) (counties : List County) :
    List (Summit × Option String) :=
  summits.flatMap (joinedOf counties)

/-- Structural lexicographic comparison of character lists by code point:
`charsLt as bs` is true exactly when `as` strictly precedes `bs`. -/
def charsLt : List Char → List Char → Bool
  | [], [] => false
  | [], _ :: _ => true
  | _ :: _, [] => false
  | a :: as, b :: bs => if a < b then true else if b < a then false else charsLt as bs

/-- Boolean string comparison: `a` precedes-or-equals `b` in code-point
lexicographic order, the comparison Python's `sorted` applies to the label
strings (proved below to agree with the linear order `≤` on `String`). -/
def strLeb (a b : String) : Bool := ! charsLt b.data a.data

/-- The sorting relation of the pipeline, as a proposition. -/
def strLe (a b : String) : Prop := strLeb a b = true

instance decStrLe : DecidableRel strLe :=
  fun a b => inferInstanceAs (Decidable (strLeb a b = true))

/-- The `CountyFull` aggregation of the groupby (line 84):
`", ".join(sorted(set(x.dropna())))`. -/
def aggLabel (vals : List (Option String)) : String :=
  String.intercalate ", " (((vals.filterMap id).dedup).insertionSort strLe)

/-- The group keys of `joined.groupby("SummitCode")` (line 77): pandas
sorts the distinct keys ascending (`sort=True` default). -/
def groupKeys (rows : List (Summit × Option String)) : List String :=
  (((rows.map fun r => r.1.summitCode).dedup).insertionSort strLe)

/-- The rows of one `SummitCode` group, in frame order. -/
def groupRows (rows : List (Summit × Option String)) (key : String) :
    List (Summit × Option String) :=
  rows.filter fun r => r.1.summitCode == key

/-- One aggregated output row of the join (the `grouped` frame of lines
76-88). -/
structure Row where
  SummitCode : String
  SummitName : String
  RegionName : String
  AssociationName : String
  Latitude : Coord
  Longitude : Coord
  CountyFull : String
  Points : Nat
deriving DecidableEq

/-- Aggregation of one group (lines 78-86): every plain column takes its
first value in the group, `CountyFull` the sorted deduplicated join of the
non-missing values. -/
def aggRow (rows : List (Summit × Option String)) (key : String) : Option Row :=
  match groupRows rows key with
  | [] => none
  | r :: rs =>
      some { SummitCode := key,
             SummitName := r.1.summitName,
             RegionName := r.1.regionName,
             AssociationName := r.1.associationName,
             Latitude := r.1.latitude,
             Longitude := r.1.longitude,
             CountyFull := aggLabel ((r :: rs).map Prod.snd),
             Points := r.1.points }

/-- `spatial_join` (lines 56-90): build the left join of summits against
counties, translate FIPS codes, and aggregate one row per `SummitCode`
(group keys ascending, plain columns first-in-group, labels sorted,
deduplicated and joined with ", "). -/
def spatial_join (summits : List Summit) (counties : List County) : List Row :=
  let joined := joinedRows summits counties
  (groupKeys joined).filterMap (aggRow joined)

/-- `all_counties` (lines 106-108): the county vocabulary of the sidebar,
`sorted({c.strip() for row in summits["CountyFull"].dropna() for c in row.split(",")})`.
After `spatial_join` the `CountyFull` column holds a (possibly empty)
string in every row, so the `dropna()` drops nothing here; each label is
split on the single character "," and each piece stripped. -/
def all_counties (rows : List Row) : List String :=
  ((((rows.map Row.CountyFull).flatMap
      fun label => (splitComma label).map strTrim).dedup).insertionSort strLe)

/-- Substring containment as `pandas.Series.str.contains` with a literal
pattern: the empty needle occurs in every string. -/
def strContains (hay needle : String) : Bool :=
  needle == "" || (hay.splitOn needle).length != 1

/-- The sidebar filter conditions of lines 115-123: a summit passes the text
search when the (lowercased) search text occurs in its name or its code,
and passes the county filter when the selected county value occurs in its
`CountyFull` label; `"All"` and the empty search text pass everything. -/
def filtered (summits : List Row) (searchText : String) (selectedCounty : String) :
    List Row :=
  let f1 :=
    if searchText = "" then summits
    else summits.filter fun r =>
      strContains r.SummitName.toLower searchText.toLower ||
      strContains r.SummitCode.toLower searchText.toLower
  if selectedCounty = "All" then f1
  else f1.filter fun r => strContains r.CountyFull selectedCounty

/-- Modelled from the spec: the minimum-score threshold filter of the
filter layer (§4.4, "a minimum score threshold (inclusive)").  This third
filter parameter is absent from `src/app.py` (it belongs to the
repository's other dashboard variants, which are not under `src/`); a row
passes when its score is at least the threshold, and an omitted threshold
passes every row. -/
def filter_min_score (rows : List Row) (minScore : Option Nat) : List Row :=
  match minScore with
  | none => rows
  | some m => rows.filter fun r => m ≤ r.Points

/-- The three-parameter filter layer of §4.4: the two filters of
`src/app.py` followed by the spec-modelled minimum-score filter. -/
def filter_layer (summits : List Row) (searchText : String) (selectedCounty : String)
    (minScore : Option Nat) : List Row :=
  filter_min_score (filtered summits searchText selectedCounty) minScore

/-- One composite entry as the spec words it:
`"{polygon name} County, {abbreviation}"` with the abbreviation obtained by
translating the polygon's region code through the static table, missing
whenever any component is missing. -/
def specEntry (c : County) : Option String :=
  match c.NAME, c.STATE with
  | some n, some code => (fipsLookup code).map fun a => n ++ " County, " ++ a
  | _, _ => none

/-- The composite label as the spec words it: the set of
`"{polygon name} County, {abbreviation}"` strings of the polygons matched
by the point (entries with a missing component excluded), deduplicated,
sorted ascending and joined with ", ". -/
def specLabel (counties : List County) (p : Coord × Coord) : String :=
  String.intercalate ", "
    ((((matchesOf counties p).filterMap specEntry).dedup).insertionSort strLe)

/-- The county vocabulary as the spec words it: split every non-empty
composite label on its separator ", ", trim each piece, deduplicate, sort. -/
def spec_all_counties (rows : List Row) : List String :=
  (((((rows.map Row.CountyFull).filter fun label => label ≠ "").flatMap
      fun label => (splitCommaSpace label).map strTrim).dedup).insertionSort strLe)

/-! ### Concrete instances used in the scenario theorems -/

/-- The polygon of the spec's concrete scenario: `NAME="King"`, `STATE="53"`,
with the point (−121, 47) in its interior. -/
def kingCounty : County :=
  { NAME := some "King", STATE := some "53",
    interior := fun p => p == ((-121 : Coord), (47 : Coord)),
    boundary := fun _ => false }

/-- The summit of the spec's concrete scenario: "W7A/AA-001" at (47, −121)
with score 8. -/
def w7aSummit : Summit :=
  { summitCode := "W7A/AA-001", summitName := "Summit A", regionName := "AA",
    associationName := "W7A", latitude := 47, longitude := -121, points := 8 }

/-- The aggregated row the join produces for `w7aSummit` inside `kingCounty`. -/
def w7aRow : Row :=
  { SummitCode := "W7A/AA-001", SummitName := "Summit A", RegionName := "AA",
    AssociationName := "W7A", Latitude := 47, Longitude := -121,
    CountyFull := "King County, WA", Points := 8 }

/-- A summit that matches no polygon. -/
def lonelySummit : Summit :=
  { summitCode := "W6/NS-001", summitName := "Lonely", regionName := "NS",
    associationName := "W6", latitude := 37, longitude := -119, points := 4 }

/-- The aggregated row of `lonelySummit` with zero matches: empty label. -/
def lonelyRow : Row :=
  { SummitCode := "W6/NS-001", SummitName := "Lonely", RegionName := "NS",
    AssociationName := "W6", Latitude := 37, Longitude := -119,
    CountyFull := "", Points := 4 }

/-- A point lying on the shared edge of two adjacent polygons. -/
def edgePoint : Coord × Coord := (-119, 46)

/-- First of two adjacent polygons whose common boundary contains `edgePoint`. -/
def adamsCounty : County :=
  { NAME := some "Adams", STATE := some "53",
    interior := fun _ => false, boundary := fun p => p == edgePoint }

/-- Second of two adjacent polygons whose common boundary contains `edgePoint`. -/
def bentonCounty : County :=
  { NAME := some "Benton", STATE := some "53",
    interior := fun _ => false, boundary := fun p => p == edgePoint }

/-- A summit located exactly at `edgePoint`. -/
def edgeSummit : Summit :=
  { summitCode := "W7W/ED-001", summitName := "Edge", regionName := "ED",
    associationName := "W7W", latitude := 46, longitude := -119, points := 2 }

/-- First of two source rows sharing one identifier. -/
def dupFirst : Summit :=
  { summitCode := "W0C/FR-001", summitName := "First Peak", regionName := "FR",
    associationName := "W0C", latitude := 39, longitude := -105, points := 2 }

/-- Second source row with the same identifier and different fields. -/
def dupSecond : Summit :=
  { summitCode := "W0C/FR-001", summitName := "Second Peak", regionName := "SR",
    associationName := "W0D", latitude := 40, longitude := -106, points := 9 }

/-- The single collapsed row of the duplicate pair: first row's fields. -/
def dupRow : Row :=
  { SummitCode := "W0C/FR-001", SummitName := "First Peak", RegionName := "FR",
    AssociationName := "W0C", Latitude := 39, Longitude := -105,
    CountyFull := "", Points := 2 }

/-- A polygon whose region code "99" is absent from the static table. -/
def c99County : County :=
  { NAME := some "Unknown", STATE := some "99",
    interior := fun p => p == ((-100 : Coord), (40 : Coord)),
    boundary := fun _ => false }

/-- A summit whose sole matching polygon is `c99County`. -/
def s99Summit : Summit :=
  { summitCode := "W9X/XX-001", summitName := "Nowhere", regionName := "XX",
    associationName := "W9X", latitude := 40, longitude := -100, points := 1 }

/-- A raw source row whose latitude cell is the empty string. -/
def emptyLatRow : RawSummit :=
  { summitCode := "W7O/CN-001", summitName := "Blank", regionName := "CN",
    associationName := "W7O", latitude := "", longitude := "-121.5", points := 2 }

/-- A row whose score is 8, below the threshold 10 of the filter scenario. -/
def low1Row : Row :=
  { SummitCode := "W4T/SU-001", SummitName := "Low", RegionName := "SU",
    AssociationName := "W4T", Latitude := 35, Longitude := -84,
    CountyFull := "", Points := 8 }

/-- A summit whose identifier sorts first. -/
def summitA : Summit :=
  { summitCode := "W1A/AA-001", summitName := "Alpha", regionName := "AA",
    associationName := "W1A", latitude := 44, longitude := -71, points := 1 }

/-- A summit whose identifier sorts second. -/
def summitB : Summit :=
  { summitCode := "W2B/BB-002", summitName := "Beta", regionName := "BB",
    associationName := "W2B", latitude := 41, longitude := -74, points := 1 }

/-! ### The pipeline's string comparison agrees with the linear order -/

theorem charsLt_iff : ∀ as bs : List Char, charsLt as bs = true ↔ List.Lex (· < ·) as bs
  | [], [] => by
      rw [charsLt]
      simp
  | [], b :: bs => by
      rw [charsLt]
      simp
      exact List.Lex.nil
  | a :: as, [] => by
      rw [charsLt]
      simp
  | a :: as, b :: bs => by
      rw [charsLt]
      rcases lt_trichotomy a b with hab | heq | hba
      · simp only [hab, if_true]
        exact iff_of_true trivial (List.Lex.rel hab)
      · subst heq
        simp only [lt_irrefl, if_false]
        rw [charsLt_iff as bs]
        exact (List.Lex.cons_iff).symm
      · have hab : ¬ a < b := not_lt_of_gt hba
        simp only [hab, if_false, hba, if_true]
        constructor
        · intro h
          cases h
        · intro h
          cases h with
          | cons h2 => exact absurd hba (lt_irrefl a)
          | rel h2 => exact absurd h2 hab

theorem string_lt_iff_lex (a b : String) : a < b ↔ List.Lex (· < ·) a.data b.data := by
  rw [String.lt_iff_toList_lt]
  exact Iff.rfl

theorem strLe_iff (a b : String) : strLe a b ↔ a ≤ b := by
  rw [strLe, strLeb, Bool.not_eq_true']
  constructor
  · intro h
    rw [← not_lt]
    intro hba
    rw [string_lt_iff_lex, ← charsLt_iff, h] at hba
    cases hba
  · intro h
    cases hc : charsLt b.data a.data
    · rfl
    · exfalso
      have h2 : List.Lex (· < ·) b.data a.data := (charsLt_iff _ _).mp hc
      rw [← string_lt_iff_lex] at h2
      exact absurd h (not_le_of_gt h2)

theorem strLe_isTotal : IsTotal String strLe :=
  ⟨fun a b => by
    rw [strLe_iff, strLe_iff]
    exact le_total a b⟩

theorem strLe_isTrans : IsTrans String strLe :=
  ⟨fun a b c h1 h2 => by
    rw [strLe_iff] at h1 h2 ⊢
    exact le_trans h1 h2⟩

theorem sorted_insertionSort_strLe (l : List String) :
    (l.insertionSort strLe).Sorted (· ≤ ·) := by
  haveI := strLe_isTotal
  haveI := strLe_isTrans
  exact (List.sorted_insertionSort strLe l).imp fun h => (strLe_iff _ _).mp h

/-! ### Lemmas on the joined frame -/

theorem joinedOf_ne_nil (counties : List County) (s : Summit) :
    joinedOf counties s ≠ [] := by
  cases h : matchesOf counties (s.longitude, s.latitude) with
  | nil => simp [joinedOf, h]
  | cons c ms => simp [joinedOf, h]

theorem fst_of_mem_joinedOf {counties : List County} {s : Summit}
    {x : Summit × Option String} (hx : x ∈ joinedOf counties s) : x.1 = s := by
  cases h : matchesOf counties (s.longitude, s.latitude) with
  | nil =>
      simp only [joinedOf, h, List.mem_singleton] at hx
      rw [hx]
  | cons c ms =>
      simp only [joinedOf, h, List.mem_map] at hx
      obtain ⟨a, _, ha⟩ := hx
      rw [← ha]

theorem mem_summits_of_mem_joinedRows {summits : List Summit} {counties : List County}
    {x : Summit × Option String} (hx : x ∈ joinedRows summits counties) :
    x.1 ∈ summits := by
  rw [joinedRows, List.mem_flatMap] at hx
  obtain ⟨s, hs, hxs⟩ := hx
  rw [fst_of_mem_joinedOf hxs]
  exact hs

theorem exists_mem_joinedRows {summits : List Summit} (counties : List County)
    {s : Summit} (hs : s ∈ summits) :
    ∃ o, (s, o) ∈ joinedRows summits counties := by
  obtain ⟨x, hx⟩ : ∃ x, x ∈ joinedOf counties s := by
    cases h : joinedOf counties s with
    | nil => exact absurd h (joinedOf_ne_nil counties s)
    | cons y ys => exact ⟨y, h ▸ List.mem_cons_self y ys⟩
  refine ⟨x.2, ?_⟩
  rw [joinedRows, List.mem_flatMap]
  refine ⟨s, hs, ?_⟩
  have h1 := fst_of_mem_joinedOf hx
  have h2 : (s, x.2) = x := by rw [← h1]
  rw [h2]
  exact hx

/-! ### Lemmas on the grouping -/

theorem mem_groupKeys {rows : List (Summit × Option String)} {k : String} :
    k ∈ groupKeys rows ↔ ∃ x ∈ rows, x.1.summitCode = k := by
  simp [groupKeys, List.mem_insertionSort, List.mem_dedup]

theorem groupKeys_nodup (rows : List (Summit × Option String)) :
    (groupKeys rows).Nodup :=
  ((List.perm_insertionSort _ _).nodup_iff).mpr (List.nodup_dedup _)

theorem groupKeys_sorted (rows : List (Summit × Option String)) :
    (groupKeys rows).Sorted (· ≤ ·) :=
  sorted_insertionSort_strLe _

theorem groupKeys_sorted_lt (rows : List (Summit × Option String)) :
    (groupKeys rows).Sorted (· < ·) :=
  (groupKeys_sorted rows).lt_of_le (groupKeys_nodup rows)

theorem groupRows_ne_nil_of_mem_groupKeys {rows : List (Summit × Option String)}
    {k : String} (hk : k ∈ groupKeys rows) : groupRows rows k ≠ [] := by
  obtain ⟨x, hx, hcode⟩ := mem_groupKeys.mp hk
  intro hnil
  have hmem : x ∈ groupRows rows k := by
    rw [groupRows, List.mem_filter]
    exact ⟨hx, by simp [hcode]⟩
  rw [hnil] at hmem
  exact absurd hmem (List.not_mem_nil x)

theorem filterMap_aggRow_codes (rows : List (Summit × Option String)) :
    ∀ ks : List String, (∀ k ∈ ks, groupRows rows k ≠ []) →
      (ks.filterMap (aggRow rows)).map Row.SummitCode = ks := by
  intro ks
  induction ks with
  | nil => intro _; rfl
  | cons k ks ih =>
      intro h
      cases hgr : groupRows rows k with
      | nil => exact absurd hgr (h k (List.mem_cons_self _ _))
      | cons r rs =>
          rw [List.filterMap_cons]
          simp [aggRow, hgr, ih fun a ha => h a (List.mem_cons_of_mem _ ha)]

theorem spatial_join_codes (summits : List Summit) (counties : List County) :
    (spatial_join summits counties).map Row.SummitCode
      = groupKeys (joinedRows summits counties) :=
  filterMap_aggRow_codes _ _ fun _ hk => groupRows_ne_nil_of_mem_groupKeys hk

theorem mem_spatial_join {summits : List Summit} {counties : List County} {row : Row} :
    row ∈ spatial_join summits counties ↔
      ∃ k, k ∈ groupKeys (joinedRows summits counties) ∧
        aggRow (joinedRows summits counties) k = some row :=
  List.mem_filterMap

theorem count_summitCode_one {summits : List Summit} {counties : List County}
    {s : Summit} (hs : s ∈ summits) :
    ((spatial_join summits counties).map Row.SummitCode).count s.summitCode = 1 := by
  rw [spatial_join_codes]
  apply List.count_eq_one_of_mem (groupKeys_nodup _)
  rw [mem_groupKeys]
  obtain ⟨o, ho⟩ := exists_mem_joinedRows counties hs
  exact ⟨(s, o), ho, rfl⟩

/-! ### Lemmas on the label aggregation -/

theorem aggLabel_of_all_none {vals : List (Option String)}
    (h : ∀ v ∈ vals, v = none) : aggLabel vals = "" := by
  have hnil : vals.filterMap id = [] := List.filterMap_eq_nil_iff.mpr h
  rw [aggLabel, hnil]
  rfl

theorem countyFull_eq_specEntry (c : County) : countyFull c = specEntry c := by
  cases hn : c.NAME with
  | none => simp [countyFull, specEntry, hn]
  | some n =>
      cases hs : c.STATE with
      | none => simp [countyFull, specEntry, hn, hs]
      | some code =>
          cases hl : fipsLookup code with
          | none => simp [countyFull, specEntry, hn, hs, hl, Option.bind]
          | some a => simp [countyFull, specEntry, hn, hs, hl, Option.bind]

theorem countyFull_fun_eq : countyFull = specEntry :=
  funext countyFull_eq_specEntry

theorem aggLabel_joinedOf (counties : List County) (s : Summit) :
    aggLabel ((joinedOf counties s).map Prod.snd)
      = specLabel counties (s.longitude, s.latitude) := by
  rw [specLabel]
  cases hm : matchesOf counties (s.longitude, s.latitude) with
  | nil =>
      simp only [joinedOf, hm, List.map_cons, List.map_nil]
      rw [aggLabel]
      rfl
  | cons c ms =>
      simp only [joinedOf, hm, List.map_map]
      rw [aggLabel]
      have hcomp : (Prod.snd ∘ fun x => ((s, countyFull x) : Summit × Option String))
          = countyFull := rfl
      rw [hcomp, List.filterMap_map]
      have hid : (id ∘ countyFull) = specEntry := countyFull_fun_eq
      rw [hid]

/-! ### Lemmas on the per-key group of the joined frame -/

theorem groupRows_joinedRows_cons (t : Summit) (tl : List Summit)
    (counties : List County) (code : String) :
    groupRows (joinedRows (t :: tl) counties) code
      = (joinedOf counties t).filter (fun r => r.1.summitCode == code)
        ++ groupRows (joinedRows tl counties) code := by
  rw [joinedRows, List.flatMap_cons, groupRows, List.filter_append]
  rfl

theorem filter_joinedOf_pos {counties : List County} {t : Summit} {code : String}
    (h : t.summitCode = code) :
    (joinedOf counties t).filter (fun r => r.1.summitCode == code)
      = joinedOf counties t := by
  apply List.filter_eq_self.mpr
  intro x hx
  simp [fst_of_mem_joinedOf hx, h]

theorem filter_joinedOf_neg {counties : List County} {t : Summit} {code : String}
    (h : ¬ t.summitCode = code) :
    (joinedOf counties t).filter (fun r => r.1.summitCode == code) = [] := by
  apply List.filter_eq_nil_iff.mpr
  intro x hx
  simp [fst_of_mem_joinedOf hx, h]

theorem groupRows_joinedRows_of_not_mem {summits : List Summit}
    {counties : List County} {code : String}
    (h : code ∉ summits.map Summit.summitCode) :
    groupRows (joinedRows summits counties) code = [] := by
  induction summits with
  | nil => rfl
  | cons t tl ih =>
      rw [groupRows_joinedRows_cons]
      rw [List.map_cons] at h
      have h1 : ¬ t.summitCode = code := by
        intro he
        exact h (he ▸ List.mem_cons_self _ _)
      rw [filter_joinedOf_neg h1, ih fun hm => h (List.mem_cons_of_mem _ hm)]
      rfl

theorem groupRows_joinedRows_nodup {summits : List Summit} {counties : List County}
    {s : Summit} (hnd : (summits.map Summit.summitCode).Nodup) (hs : s ∈ summits) :
    groupRows (joinedRows summits counties) s.summitCode = joinedOf counties s := by
  induction summits with
  | nil => cases hs
  | cons t tl ih =>
      rw [groupRows_joinedRows_cons]
      rw [List.map_cons, List.nodup_cons] at hnd
      rcases List.mem_cons.mp hs with rfl | hs2
      · rw [filter_joinedOf_pos rfl,
            groupRows_joinedRows_of_not_mem hnd.1, List.append_nil]
      · have hcode : ¬ t.summitCode = s.summitCode := by
          intro he
          apply hnd.1
          rw [he]
          exact List.mem_map_of_mem _ hs2
        rw [filter_joinedOf_neg hcode, List.nil_append, ih hnd.2 hs2]

theorem head_groupRows_of_find? {summits : List Summit} {counties : List County}
    {code : String} {s : Summit}
    (hf : summits.find? (fun t => t.summitCode == code) = some s) :
    ∀ r rs, groupRows (joinedRows summits counties) code = r :: rs → r.1 = s := by
  induction summits with
  | nil => simp at hf
  | cons t tl ih =>
      intro r rs hgr
      rw [groupRows_joinedRows_cons] at hgr
      cases hc : (t.summitCode == code) with
      | true =>
          have h : t.summitCode = code := by simpa using hc
          simp only [List.find?_cons, hc, Option.some.injEq] at hf
          rw [filter_joinedOf_pos h] at hgr
          cases hjo : joinedOf counties t with
          | nil => exact absurd hjo (joinedOf_ne_nil counties t)
          | cons y ys =>
              rw [hjo, List.cons_append] at hgr
              have hy : y.1 = t := fst_of_mem_joinedOf (hjo ▸ List.mem_cons_self y ys)
              have h1 : y = r := (List.cons.injEq _ _ _ _ ▸ hgr).1
              rw [← h1, hy, hf]
      | false =>
          have h : ¬ t.summitCode = code := by simpa using hc
          simp only [List.find?_cons, hc] at hf
          rw [filter_joinedOf_neg h, List.nil_append] at hgr
          exact ih hf r rs hgr

theorem aggRow_eq {rows : List (Summit × Option String)} {k : String} {row : Row}
    (h : aggRow rows k = some row) :
    ∃ r rs, groupRows rows k = r :: rs ∧
      row = { SummitCode := k, SummitName := r.1.summitName,
              RegionName := r.1.regionName,
              AssociationName := r.1.associationName, Latitude := r.1.latitude,
              Longitude := r.1.longitude,
              CountyFull := aggLabel ((r :: rs).map Prod.snd),
              Points := r.1.points } := by
  cases hgr : groupRows rows k with
  | nil => simp [aggRow, hgr] at h
  | cons r rs =>
      refine ⟨r, rs, rfl, ?_⟩
      simp only [aggRow, hgr, Option.some.injEq] at h
      exact h.symm

/-! ### The claims -/

/-- C1: for every point, the composite label of its aggregated row equals the
lexicographically-ascending-sorted, deduplicated set of
"{polygon name} County, {abbreviation}" strings of its matched polygons
(abbreviation via the static table) joined with ", "; in particular the
point "W7A/AA-001" whose sole match is {NAME="King", STATE="53"} gets the
label "King County, WA". -/
theorem composite_label_correct :
    (∀ (summits : List Summit) (counties : List County) (s : Summit),
        s ∈ summits → (summits.map Summit.summitCode).Nodup →
        ∀ row ∈ spatial_join summits counties, row.SummitCode = s.summitCode →
          row.CountyFull = specLabel counties (s.longitude, s.latitude))
    ∧ (spatial_join [w7aSummit] [kingCounty]).map Row.CountyFull
        = ["King County, WA"] := by
  constructor
  · intro summits counties s hs hnd row hrow hcode
    obtain ⟨k, hk, hagg⟩ := mem_spatial_join.mp hrow
    obtain ⟨r, rs, hgr, hroweq⟩ := aggRow_eq hagg
    have hkcode : k = s.summitCode := by rw [hroweq] at hcode; exact hcode
    rw [hkcode, groupRows_joinedRows_nodup hnd hs] at hgr
    rw [hroweq]
    show aggLabel ((r :: rs).map Prod.snd) = _
    rw [← hgr]
    exact aggLabel_joinedOf counties s
  · decide

/-- Witness for C1: the scenario point "W7A/AA-001" inside the King polygon,
instantiating the general label statement. -/
theorem composite_label_correct_witness :
    w7aRow ∈ spatial_join [w7aSummit] [kingCounty] ∧
    w7aRow.CountyFull
      = specLabel [kingCounty] (w7aSummit.longitude, w7aSummit.latitude) := by
  refine ⟨by decide, ?_⟩
  exact composite_label_correct.1 [w7aSummit] [kingCounty] w7aSummit
    (List.mem_singleton.mpr rfl) (by decide) w7aRow (by decide) rfl

/-- C2: every loaded point yields exactly one aggregated row for its
identifier, even with zero polygon matches, and when the point's rows
match zero polygons the composite label of that row is the empty string
(the point is never dropped). -/
theorem left_join_total :
    ∀ (summits : List Summit) (counties : List County) (s : Summit),
      s ∈ summits →
      ((spatial_join summits counties).map Row.SummitCode).count s.summitCode = 1 ∧
      ((∀ t ∈ summits, t.summitCode = s.summitCode →
          matchesOf counties (t.longitude, t.latitude) = []) →
        ∀ row ∈ spatial_join summits counties, row.SummitCode = s.summitCode →
          row.CountyFull = "") := by
  intro summits counties s hs
  refine ⟨count_summitCode_one hs, ?_⟩
  intro hzero row hrow hcode
  obtain ⟨k, hk, hagg⟩ := mem_spatial_join.mp hrow
  obtain ⟨r, rs, hgr, hroweq⟩ := aggRow_eq hagg
  have hkcode : k = s.summitCode := by rw [hroweq] at hcode; exact hcode
  rw [hroweq]
  show aggLabel ((r :: rs).map Prod.snd) = ""
  apply aggLabel_of_all_none
  intro v hv
  rw [List.mem_map] at hv
  obtain ⟨x, hx, hxv⟩ := hv
  rw [← hgr] at hx
  have hxj : x ∈ joinedRows summits counties := (List.mem_filter.mp hx).1
  have hxcode : x.1.summitCode = k := by
    have h2 := (List.mem_filter.mp hx).2
    simpa using h2
  rw [joinedRows, List.mem_flatMap] at hxj
  obtain ⟨t, ht, hxt⟩ := hxj
  have hxt1 : x.1 = t := fst_of_mem_joinedOf hxt
  have hmt : matchesOf counties (t.longitude, t.latitude) = [] :=
    hzero t ht (by rw [← hxt1, hxcode, hkcode])
  simp only [joinedOf, hmt, List.mem_singleton] at hxt
  rw [← hxv, hxt]

/-- Witness for C2: a summit with zero matches keeps its (single) output row
and gets the empty composite label. -/
theorem left_join_total_witness :
    ((spatial_join [lonelySummit] []).map Row.SummitCode).count
        lonelySummit.summitCode = 1 ∧
    lonelyRow.CountyFull = "" := by
  have h := left_join_total [lonelySummit] [] lonelySummit (List.mem_singleton.mpr rfl)
  exact ⟨h.1, h.2 (fun _ _ _ => rfl) lonelyRow (by decide) rfl⟩

/-- C3: the containment predicate of the join is inclusive — a polygon is
matched exactly when the point lies strictly inside it or on its boundary;
consequently a point on the shared edge of two adjacent polygons gets both
polygons' labels in its composite label. -/
theorem inclusive_containment :
    (∀ (counties : List County) (p : Coord × Coord) (c : County), c ∈ counties →
        (c ∈ matchesOf counties p ↔
          (c.interior p = true ∨ c.boundary p = true)))
    ∧ (spatial_join [edgeSummit] [adamsCounty, bentonCounty]).map Row.CountyFull
        = ["Adams County, WA, Benton County, WA"] := by
  constructor
  · intro counties p c hc
    rw [matchesOf, List.mem_filter]
    constructor
    · intro h
      have h2 := h.2
      rwa [intersects, Bool.or_eq_true] at h2
    · intro h
      refine ⟨hc, ?_⟩
      rw [intersects, Bool.or_eq_true]
      exact h
  · decide

/-- Witness for C3: a polygon whose boundary carries the point is matched,
instantiating the inclusive-predicate statement on the shared-edge scenario. -/
theorem inclusive_containment_witness :
    adamsCounty ∈ matchesOf [adamsCounty, bentonCounty] edgePoint ↔
      (adamsCounty.interior edgePoint = true ∨
        adamsCounty.boundary edgePoint = true) :=
  inclusive_containment.1 [adamsCounty, bentonCounty] edgePoint adamsCounty
    (List.mem_cons_self _ _)

/-- C4: rows with the same identifier collapse to exactly one output row
whose non-label fields are those of the first source row with that
identifier, regardless of how many polygons any duplicate matched. -/
theorem first_wins_dedup :
    ∀ (summits : List Summit) (counties : List County) (code : String) (s : Summit),
      summits.find? (fun t => t.summitCode == code) = some s →
      ((spatial_join summits counties).map Row.SummitCode).count code = 1 ∧
      (∀ row ∈ spatial_join summits counties, row.SummitCode = code →
        row.SummitName = s.summitName ∧ row.RegionName = s.regionName ∧
        row.AssociationName = s.associationName ∧ row.Latitude = s.latitude ∧
        row.Longitude = s.longitude ∧ row.Points = s.points) := by
  intro summits counties code s hf
  have hs : s ∈ summits := List.mem_of_find?_eq_some hf
  have hcode : s.summitCode = code := by
    have h2 := List.find?_some hf
    simpa using h2
  constructor
  · rw [← hcode]
    exact count_summitCode_one hs
  · intro row hrow hrcode
    obtain ⟨k, hk, hagg⟩ := mem_spatial_join.mp hrow
    obtain ⟨r, rs, hgr, hroweq⟩ := aggRow_eq hagg
    have hkc : k = code := by rw [hroweq] at hrcode; exact hrcode
    rw [hkc] at hgr
    have hr1 : r.1 = s := head_groupRows_of_find? hf r rs hgr
    rw [hroweq]
    exact ⟨congrArg Summit.summitName hr1, congrArg Summit.regionName hr1,
           congrArg Summit.associationName hr1, congrArg Summit.latitude hr1,
           congrArg Summit.longitude hr1, congrArg Summit.points hr1⟩

/-- Witness for C4: two source rows with identifier "W0C/FR-001" collapse to
one output row carrying the first row's name. -/
theorem first_wins_dedup_witness :
    ((spatial_join [dupFirst, dupSecond] []).map Row.SummitCode).count
        "W0C/FR-001" = 1 ∧
    dupRow.SummitName = dupFirst.summitName := by
  have h := first_wins_dedup [dupFirst, dupSecond] [] "W0C/FR-001" dupFirst (by decide)
  exact ⟨h.1, (h.2 dupRow (by decide) rfl).1⟩

/-- C5: a matched polygon whose region code is absent from the static table
contributes no entry to the composite label; a point whose sole match
carries code "99" gets the empty label, with no error and no placeholder. -/
theorem missing_code_dropped :
    (∀ (c : County) (code : String), c.STATE = some code → fipsLookup code = none →
        countyFull c = none)
    ∧ (spatial_join [s99Summit] [c99County]).map Row.CountyFull = [""] := by
  constructor
  · intro c code hst hl
    cases hn : c.NAME with
    | none => simp [countyFull, hn, hst, hl, Option.bind]
    | some n => simp [countyFull, hn, hst, hl, Option.bind]
  · decide

/-- Witness for C5: the polygon with code "99" yields a missing composite
entry, instantiating the lookup-miss statement. -/
theorem missing_code_dropped_witness :
    countyFull c99County = none :=
  missing_code_dropped.1 c99County "99" rfl (by decide)

/-- C6: the loader drops every row whose latitude or longitude cell fails
numeric coercion (the empty cell included) without raising; only rows in
which both coordinates coerce contribute to the loaded point set, and a
row with an empty latitude cell is excluded entirely. -/
theorem loader_drops_bad_coords :
    (∀ rows : List RawSummit,
        load_summits rows = load_summits (rows.filter fun r =>
          (toNumeric r.latitude).isSome && (toNumeric r.longitude).isSome))
    ∧ toNumeric "" = none
    ∧ load_summits [emptyLatRow] = [] := by
  refine ⟨?_, by decide, by decide⟩
  intro rows
  induction rows with
  | nil => rfl
  | cons r rows ih =>
      cases hla : toNumeric r.latitude with
      | none =>
          rw [List.filter_cons]
          simp [load_summits, hla, List.filterMap_cons] at ih ⊢
          exact ih
      | some la =>
          cases hlo : toNumeric r.longitude with
          | none =>
              rw [List.filter_cons]
              simp [load_summits, hla, hlo, List.filterMap_cons] at ih ⊢
              exact ih
          | some lo =>
              rw [List.filter_cons]
              simp [load_summits, hla, hlo, List.filterMap_cons] at ih ⊢
              exact ih

/-- C7 counterexample: every composite entry itself contains ", " between
the county name and the abbreviation, so splitting produces the fragments
"King County" and "WA" — never the complete label "King County, WA" the
claim promises; moreover the code splits on the bare character "," and
does not skip empty composite labels, so a zero-match row contributes the
empty string to the vocabulary, which the claim's "every non-empty
composite label" wording excludes. -/
theorem vocabulary_split_counterexample :
    all_counties [w7aRow] = ["King County", "WA"] ∧
    "King County, WA" ∉ all_counties [w7aRow] ∧
    all_counties [lonelyRow] = [""] ∧
    spec_all_counties [lonelyRow] = [] := by
  exact ⟨by decide, by decide, by decide, by decide⟩

/-- C7 amended: the vocabulary is the sorted deduplication of the
whitespace-trimmed pieces obtained by splitting every composite label
(empty labels included) on the single character ","; its elements are
label fragments (the "{name} County" part and the abbreviation), not
complete labels. -/
theorem vocabulary_amended :
    ∀ rows : List Row,
      (all_counties rows).Sorted (· ≤ ·) ∧ (all_counties rows).Nodup ∧
      (∀ x : String, x ∈ all_counties rows ↔
        ∃ row ∈ rows, ∃ piece ∈ splitComma row.CountyFull, x = strTrim piece) := by
  intro rows
  refine ⟨sorted_insertionSort_strLe _,
    ((List.perm_insertionSort _ _).nodup_iff).mpr (List.nodup_dedup _), ?_⟩
  intro x
  rw [all_counties, List.mem_insertionSort, List.mem_dedup, List.mem_flatMap]
  constructor
  · rintro ⟨label, hlabel, hx⟩
    rw [List.mem_map] at hlabel
    obtain ⟨row, hrow, hlab⟩ := hlabel
    rw [List.mem_map] at hx
    obtain ⟨piece, hpiece, hpx⟩ := hx
    exact ⟨row, hrow, piece, by rw [hlab]; exact hpiece, hpx.symm⟩
  · rintro ⟨row, hrow, piece, hpiece, hpx⟩
    refine ⟨row.CountyFull, List.mem_map_of_mem _ hrow, ?_⟩
    rw [List.mem_map]
    exact ⟨piece, hpiece, hpx.symm⟩

/-- C8: the filter layer takes a minimum-score threshold as its third
optional parameter and applies it inclusively; with the other filters at
their defaults a row passes exactly when its score reaches the threshold,
and a threshold above every score yields the empty result set, not an
error. -/
theorem min_score_filter :
    (∀ (rows : List Row) (m : Nat) (r : Row),
        r ∈ filter_layer rows "" "All" (some m) ↔ (r ∈ rows ∧ m ≤ r.Points))
    ∧ (∀ (rows : List Row) (m : Nat),
        (∀ r ∈ rows, r.Points < m) → filter_layer rows "" "All" (some m) = []) := by
  have hplain : ∀ rows : List Row, filtered rows "" "All" = rows := by
    intro rows
    simp [filtered]
  constructor
  · intro rows m r
    rw [filter_layer, hplain, filter_min_score, List.mem_filter]
    simp
  · intro rows m h
    rw [filter_layer, hplain, filter_min_score]
    apply List.filter_eq_nil_iff.mpr
    intro r hr
    simp
    exact h r hr

/-- Witness for C8: a dataset whose only score is 8 filtered with minimum
score 10 yields the empty result set. -/
theorem min_score_filter_witness :
    low1Row.Points ≤ 8 ∧ filter_layer [low1Row] "" "All" (some 10) = [] := by
  refine ⟨by decide, ?_⟩
  exact min_score_filter.2 [low1Row] 10 (by decide)

/-- C9: the spatial join is a deterministic function of its inputs: two runs
on the same loaded point and polygon collections yield identical output. -/
theorem join_deterministic :
    ∀ (summits : List Summit) (counties : List County) (out1 out2 : List Row),
      out1 = spatial_join summits counties → out2 = spatial_join summits counties →
      out1 = out2 := by
  intro _ _ _ _ h1 h2
  rw [h1, h2]

/-- Witness for C9: two runs on the concrete scenario inputs coincide. -/
theorem join_deterministic_witness :
    spatial_join [w7aSummit] [kingCounty] = spatial_join [w7aSummit] [kingCounty] :=
  join_deterministic [w7aSummit] [kingCounty] _ _ rfl rfl

/-- C10: the rows of the join output are ordered by identifier in strictly
ascending lexicographic order (pandas sorts the group keys), so the output
order is not the loader's source order: feeding the summits in the order
[B, A] still yields the rows in the order [A, B]. -/
theorem output_sorted_by_code :
    (∀ (summits : List Summit) (counties : List County),
        ((spatial_join summits counties).map Row.SummitCode).Sorted (· < ·))
    ∧ (spatial_join [summitB, summitA] []).map Row.SummitCode
        = ["W1A/AA-001", "W2B/BB-002"] := by
  constructor
  · intro summits counties
    rw [spatial_join_codes]
    exact groupKeys_sorted_lt _
  · decide

end Sota
